import Mathlib

/-!
Verification of the pyp2rpm metadata-extraction core against its
natural-language specification.  The Lean definitions below are a shallow
embedding of the Python sources:

  * `src/command/extract_dist.py`   — the injected extraction command,
  * `src/pyp2rpm/module_runners.py` — the descriptor sandbox runners,
  * `src/pyp2rpm/metadata_extractors.py` — the extraction strategies and
    the registry / environment-probe overlay passes.

Python values handled by the coercion helpers are modelled by `PyVal`;
fallible Python code is modelled with `Except`/`Option`.  Parts of the
repository that the shown sources call but that are not shown
(`pyp2rpm.settings`, `pyp2rpm.package_data`, `pyp2rpm.dependency_parser`,
`pyp2rpm.virtualenv`, `pyp2rpm.package_getters`) are modelled from the
specification; each such definition carries a doc comment starting with
`Modelled from the spec:`.
-/

namespace Pyp2rpm

/-! ## Python value model -/

/-- Shallow model of the Python values that flow through the coercion
helpers of `command/extract_dist.py`: `None`, strings, integers, lists,
tuples, sets and string-keyed dicts. -/
inductive PyVal where
  | pynone
  | str (s : String)
  | int (n : Int)
  | list (xs : List PyVal)
  | tuple (xs : List PyVal)
  | pyset (xs : List PyVal)
  | dict (xs : List (String × PyVal))

/-- Python truthiness for the modelled values: `None`, `0`, and empty
strings/containers are falsy, everything else truthy. -/
def PyVal.truthy : PyVal → Bool
  | .pynone => false
  | .str s => !s.isEmpty
  | .int n => n != 0
  | .list xs => !xs.isEmpty
  | .tuple xs => !xs.isEmpty
  | .pyset xs => !xs.isEmpty
  | .dict xs => !xs.isEmpty

/-- Python equality test of a modelled value against a string literal
(`'setuptools' in lst` compares with `==` element-wise; a non-string value
never equals a string). -/
def PyVal.eqStr : PyVal → String → Bool
  | .str s, t => s == t
  | _, _ => false

/-! ## String helpers

Python string primitives (`split`, `lower`, slicing, `in`) are modelled
over `List Char` so that every definition evaluates by kernel reduction.
-/

/-- Python's `s.split(sep)` for a single-character separator: the
segments between occurrences of `sep`; the empty string yields `[""]`. -/
def splitOnChar (sep : Char) : List Char → List (List Char)
  | [] => [[]]
  | c :: cs =>
    if c = sep then [] :: splitOnChar sep cs
    else
      match splitOnChar sep cs with
      | [] => [[c]]
      | h :: t => (c :: h) :: t

/-- Worker for `pySplit`, structurally recursive on an explicit bound
that dominates the list length (each step consumes at least one
character, so `cs.length` steps always suffice). -/
def pySplitAux (sep : List Char) : Nat → List Char → List (List Char)
  | 0, _ => [[]]
  | _ + 1, [] => [[]]
  | fuel + 1, c :: cs =>
    if sep ≠ [] ∧ sep.isPrefixOf (c :: cs) then
      [] :: pySplitAux sep fuel (List.drop (sep.length - 1) cs)
    else
      match pySplitAux sep fuel cs with
      | [] => [[c]]
      | h :: t => (c :: h) :: t

/-- Python's `s.split(sep)` for a non-empty separator string: scan left
to right, cut at each non-overlapping occurrence of `sep`. -/
def pySplit (sep cs : List Char) : List (List Char) :=
  pySplitAux sep cs.length cs

/-- Python's `s.lower()` on one character (ASCII range, which covers the
configured license markers and file names compared in the source). -/
def lowerChar (c : Char) : Char := c.toLower

/-- Python's substring test `needle in haystack`. -/
def containsSub (needle : List Char) : List Char → Bool
  | [] => needle.isEmpty
  | c :: cs => needle.isPrefixOf (c :: cs) || containsSub needle cs

/-! ## command/extract_dist.py — coercion helpers -/

/-- Embedding of `to_list` (`src/command/extract_dist.py`):
`None` becomes `[]`, a string is split on newlines, a list is kept,
any other iterable is converted via `list(...)` (tuples and sets yield
their elements, a dict yields its keys), and a non-iterable raises
`ValueError` (modelled as `.error`). -/
def to_list : PyVal → Except String (List PyVal)
  | .pynone => .ok []
  | .str s => .ok ((splitOnChar '\n' s.toList).map (fun cs => .str ⟨cs⟩))
  | .list xs => .ok xs
  | .tuple xs => .ok xs
  | .pyset xs => .ok xs
  | .dict xs => .ok (xs.map (fun kv => .str kv.fst))
  | .int _ => .error "cannot be converted to the list."

/-- Embedding of `to_str` (`src/command/extract_dist.py`): any value that
is not a string becomes the sentinel string `"TODO"`. -/
def to_str : PyVal → String
  | .str s => s
  | _ => "TODO"

/-- The raw captured distribution before `extract_dist.__init__` runs its
coercions: every attribute may be absent (`none`) or hold any Python
value.  The first six attributes live on the distribution object, the
free-text attributes and `classifiers` on `distribution.metadata`, as in
the source. -/
structure RawDistribution where
  setup_requires : Option PyVal
  tests_require : Option PyVal
  install_requires : Option PyVal
  conflicts : Option PyVal
  packages : Option PyVal
  py_modules : Option PyVal
  url : Option PyVal
  long_description : Option PyVal
  description : Option PyVal
  license : Option PyVal
  classifiers : Option PyVal
  entry_points : PyVal

/-- The distribution after `extract_dist.__init__`: list-like attributes
are genuine lists, free-text attributes genuine strings, and
`entry_points` is either untouched or reset to `None`. -/
structure CoercedDistribution where
  setup_requires : List PyVal
  tests_require : List PyVal
  install_requires : List PyVal
  conflicts : List PyVal
  packages : List PyVal
  py_modules : List PyVal
  url : String
  long_description : String
  description : String
  license : String
  classifiers : List PyVal
  entry_points : PyVal

/-- Embedding of `extract_dist.__init__` (`src/command/extract_dist.py`,
lines 12–30): each list attribute is read with default `[]` and passed
through `to_list`, each free-text metadata attribute is read with default
`None` and passed through `to_str`, `classifiers` is read with default
`[]` and passed through `to_list`, and a truthy non-dict `entry_points`
is replaced by `None`. -/
def extract_dist_init (raw : RawDistribution) : Except String CoercedDistribution := do
  let setup_requires ← to_list (raw.setup_requires.getD (.list []))
  let tests_require ← to_list (raw.tests_require.getD (.list []))
  let install_requires ← to_list (raw.install_requires.getD (.list []))
  let conflicts ← to_list (raw.conflicts.getD (.list []))
  let packages ← to_list (raw.packages.getD (.list []))
  let py_modules ← to_list (raw.py_modules.getD (.list []))
  let url := to_str (raw.url.getD .pynone)
  let long_description := to_str (raw.long_description.getD .pynone)
  let description := to_str (raw.description.getD .pynone)
  let license := to_str (raw.license.getD .pynone)
  let classifiers ← to_list (raw.classifiers.getD (.list []))
  let entry_points :=
    match raw.entry_points with
    | .dict d => PyVal.dict d
    | ep => if ep.truthy then PyVal.pynone else ep
  return { setup_requires, tests_require, install_requires, conflicts,
           packages, py_modules, url, long_description, description,
           license, classifiers, entry_points }

/-! ## command/extract_dist.py — the class-level handoff slot

The `extract_dist` class carries its captured distribution in *class*
attributes.  We model the class attribute dictionary as a partial map from
attribute names to stored values; looking up a name that was never
assigned models Python's `AttributeError` (result `none`). -/

/-- A value stored in a class attribute: Python `None` or a captured
distribution object. -/
inductive Slot (α : Type) where
  | pynone
  | dist (d : α)
deriving DecidableEq

/-- The class attribute dictionary of `extract_dist` as written in the
class body: only `class_dist` is declared, initialised to `None`
(`src/command/extract_dist.py`, line 10). -/
def extractDistClassAttrs (α : Type) : String → Option (Slot α) :=
  fun a => if a = "class_dist" then some .pynone else none

/-- Embedding of `extract_dist.run` (`src/command/extract_dist.py`,
lines 40–42): assigns the captured distribution to the class attribute
`class_dist`. -/
def extract_dist_run (d : α) (attrs : String → Option (Slot α)) :
    String → Option (Slot α) :=
  fun a => if a = "class_dist" then some (.dist d) else attrs a

/-- Embedding of `ModuleRunner.results` (`src/pyp2rpm/module_runners.py`,
lines 36–38): returns the class attribute `class_metadata` of
`extract_dist`; `none` models the `AttributeError` raised when the
attribute was never assigned. -/
def moduleRunner_results (attrs : String → Option (Slot α)) : Option (Slot α) :=
  attrs "class_metadata"

/-- Embedding of the read in `SetupPyMetadataExtractor.__init__`
(`src/pyp2rpm/metadata_extractors.py`, line 296): reads the class
attribute `class_dist` of `extract_dist`. -/
def setupPyExtractor_readDistribution (attrs : String → Option (Slot α)) :
    Option (Slot α) :=
  attrs "class_dist"

/-! ## module_runners.py — ExternModuleRunner -/

/-- The marker line the out-of-process command prints before its JSON
payload (`src/pyp2rpm/module_runners.py`, line 55). -/
def jsonMarker : String := "extracted json data:\n"

/-- Outcome of `ExternModuleRunner.run`: either `self._result` is set to
the deserialized payload, or `json.loads` raises a decode error which
propagates to the caller. -/
inductive ExternRunResult (J : Type) where
  | ok (j : J)
  | jsonDecodeError
deriving DecidableEq

/-- The payload the runner deserializes: decoded stdout split on the
marker line, last segment (`split("extracted json data:\n")[-1]`). -/
def externPayload (stdout : String) : String :=
  ⟨(pySplit jsonMarker.toList stdout.toList).getLastD []⟩

/-- Embedding of `ExternModuleRunner.run`
(`src/pyp2rpm/module_runners.py`, lines 44–55).  The subprocess is
summarised by its return code and decoded stdout; `json.loads` (standard
library) is a parameter.  A non-zero return code only triggers
`logger.error` (first component `true`) and execution continues: stdout
is split on the marker line and the trailing segment is deserialized. -/
def externModuleRunner_run (jsonLoads : String → Option J)
    (returncode : Int) (stdout : String) : Bool × ExternRunResult J :=
  let errorLogged := returncode != 0
  match jsonLoads (externPayload stdout) with
  | some j => (errorLogged, .ok j)
  | none => (errorLogged, .jsonDecodeError)

/-! ## PackageData — the metadata record (modelled from the spec)

`pyp2rpm.package_data.PackageData` is not among the shown sources; the
shown extractors only call `set_from`, read attributes and assign
attributes.  The spec (§3, §4.8) describes the record as a field store
whose missing fields read as a sentinel, with *set-if-missing* and
*force-update* write modes. -/

/-- A value stored in a `PackageData` field: a string, a list of strings,
a set of strings (equality is extensional), a boolean, or Python `None`. -/
inductive DataVal where
  | str (s : String)
  | strs (xs : List String)
  | strset (xs : List String)
  | b (bb : Bool)
  | pynone
deriving DecidableEq

/-- Python `==` on stored field values: strings, lists and booleans
compare structurally, sets extensionally, values of different kinds are
unequal. -/
def DataVal.pyEq : DataVal → DataVal → Bool
  | .str a, .str bb => a == bb
  | .strs a, .strs bb => a == bb
  | .strset a, .strset bb => a.all (bb.contains ·) && bb.all (a.contains ·)
  | .b x, .b y => x == y
  | .pynone, .pynone => true
  | _, _ => false

/-- Modelled from the spec: `PackageData` (§3 MetadataRecord) — identity
fields plus an attribute store. -/
structure PackageData where
  local_file : String
  name : String
  pkg_name : String
  version : String
  attrs : List (String × DataVal)
deriving DecidableEq

/-- Modelled from the spec: reading a `PackageData` field that no writer
has set yields the sentinel marker (§3: every field has *some* value —
never absent, only "unknown"); the source renders the sentinel as the
string `"TODO:"` (see the comparison in `extract_data`, line 229). -/
def PackageData.get (d : PackageData) (k : String) : DataVal :=
  (d.attrs.lookup k).getD (.str "TODO:")

/-- Writing one attribute of the record. -/
def PackageData.setAttr (d : PackageData) (k : String) (v : DataVal) :
    PackageData :=
  { d with attrs := (k, v) :: d.attrs.filter (fun kv => kv.fst ≠ k) }

/-- Modelled from the spec: `PackageData.set_from` (§4.8 Merge Policy) —
*force-update* (`update = true`) always writes, *set-if-missing*
(`update = false`) writes only fields still at the sentinel default. -/
def PackageData.set_from (d : PackageData)
    (dict : List (String × DataVal)) (update : Bool) : PackageData :=
  dict.foldl
    (fun acc kv =>
      if update || (acc.get kv.fst).pyEq (.str "TODO:") then
        acc.setAttr kv.fst kv.snd
      else acc)
    d

/-! ## metadata_extractors.py — the registry overlay -/

/-- The registry client as seen by one overlay pass, at the fixed
`(name, version)` the overlay queries.  Modelled from the spec (§6): both
operations are remote calls and may fail; `release_data` yields the
authoritative field mapping, `get_url` (package_getters, not among the
shown sources) yields the download URL and checksum digest. -/
structure RegistryClient (R : Type) where
  release_data : Except String R
  get_url : Except String (String × String)

/-- Embedding of `pypi_metadata_extension`
(`src/pyp2rpm/metadata_extractors.py`, lines 41–65) applied to the record
`data` produced by the wrapped extraction method.  The `try` block covers
only the `client is None` check and the `client.release_data` call; its
bare `except` returns `data` unchanged.  The subsequent `get_url` call
sits outside the `try`, so its failure propagates (`.error`).  On
success the collected field dict (url, md5, the configured usable fields,
and the trove-classifier license) is merged with `update=True`.
`settings.PYPI_USABLE_DATA` and `utils.license_from_trove` are not among
the shown sources and are parameters (`usable`, `licenseFromTrove`). -/
def pypi_metadata_extension (usable : R → List (String × DataVal))
    (licenseFromTrove : R → DataVal)
    (data : PackageData) (client : Option (RegistryClient R)) :
    Except String PackageData :=
  match client with
  | none => .ok data
  | some c =>
    match c.release_data with
    | .error _ => .ok data
    | .ok rd =>
      match c.get_url with
      | .error e => .error e
      | .ok urlmd5 =>
        let data_dict :=
          [("url", DataVal.str urlmd5.fst), ("md5", DataVal.str urlmd5.snd)]
            ++ usable rd ++ [("license", licenseFromTrove rd)]
        .ok (data.set_from data_dict true)

/-! ## metadata_extractors.py — the environment-probe overlay -/

/-- Embedding of `venv_metadata_extension`
(`src/pyp2rpm/metadata_extractors.py`, lines 68–90) applied to the record
`data` produced by the wrapped extraction method.  When the `virtualenv`
module is unavailable or the extractor was created with `venv=False`, the
record is returned untouched.  Otherwise the probe is provisioned and
sampled; `pyp2rpm.virtualenv` is not among the shown sources, so the
probe is a parameter: modelled from the spec (§4.7), a provisioning
failure is signalled as `VirtualenvFailException` — exactly the type the
`except` clause catches, logs and skips, returning the record
unchanged.  On success the harvested dict is merged with `update=True`.
The boolean component records whether the failure branch ran
`logger.error`.  The temporary directory teardown
(`finally: shutil.rmtree`) has no effect on the record and is not
modelled. -/
def venv_metadata_extension (virtualenvAvailable : Bool) (venvFlag : Bool)
    (get_venv_data : Except String (List (String × DataVal)))
    (data : PackageData) : Bool × PackageData :=
  if !virtualenvAvailable || !venvFlag then (false, data)
  else
    match get_venv_data with
    | .ok vd => (false, data.set_from vd true)
    | .error _ => (true, data)

/-! ## metadata_extractors.py — description truncation -/

/-- Scan of a character list for the first occurrence of `c`, reporting
its offset; the recursive worker behind Python's `str.find`. -/
def findCharFrom (c : Char) : List Char → Nat → Option Nat
  | [], _ => none
  | x :: xs, i => if x = c then some i else findCharFrom c xs (i + 1)

/-- Embedding of Python's `s.find(c, start)`: the least index `≥ start`
holding `c`, or `-1` when there is none. -/
def pyStrFind (s : String) (c : Char) (start : Nat) : Int :=
  match findCharFrom c (s.toList.drop start) 0 with
  | some k => ((start + k : Nat) : Int)
  | none => -1

/-- Embedding of the `SetupPyMetadataExtractor.description` property
(`src/pyp2rpm/metadata_extractors.py`, lines 370–377) as a function of
the cleaned long description (`self.long_description`, the output of the
`process_description`-wrapped property): find the first newline from
index `80 * 8`; if found, cut there and append the truncation marker
`"\n..."`, otherwise return the text whole. -/
def setupPy_description (long_description : String) : String :=
  let cut := pyStrFind long_description '\n' (80 * 8)
  if cut > -1 then
    String.mk (long_description.toList.take cut.toNat) ++ "\n..."
  else
    long_description

/-! ## metadata_extractors.py — doc/license file split -/

/-- Python's case-insensitive containment test `s in doc.lower()` as used
by `separate_license_files`. -/
def markerIn (s : String) (doc : String) : Bool :=
  containsSub s.toList (doc.toList.map lowerChar)

/-- Embedding of `LocalMetadataExtractor.separate_license_files`
(`src/pyp2rpm/metadata_extractors.py`, lines 234–240): `other` keeps the
candidates in which none of the configured license markers occurs
(case-insensitively), `licenses` those in which some marker occurs; the
source returns the pair `(other, licenses)`.  The configured marker set
`settings.LICENSE_FILES` is a parameter. -/
def separate_license_files (license_files : List String)
    (doc_files : List String) : List String × List String :=
  let other := doc_files.filter
    (fun doc => license_files.all (fun s => !markerIn s doc))
  let licenses := doc_files.filter
    (fun doc => license_files.any (fun s => markerIn s doc))
  (other, licenses)

/-- Modelled from the spec: the configured set of license-filename
markers (`settings.LICENSE_FILES`, not among the shown sources); the
spec's example marker set is `{license, copying}` (§8). -/
def LICENSE_FILES : List String := ["license", "copying"]

/-! ## metadata_extractors.py — package fallback -/

/-- Python equality between a list value and the empty set `set()`:
values of distinct built-in types, always `False`, whatever the list's
elements. -/
def pyListEqEmptySet (_xs : List PyVal) : Bool := false

/-- Embedding of `SetupPyMetadataExtractor.has_packages`
(`src/pyp2rpm/metadata_extractors.py`, lines 331–333):
`self.distribution.packages != set()`.  After `extract_dist.__init__`
the `packages` attribute is a list, and a Python list never equals a
set. -/
def setupPy_has_packages (d : CoercedDistribution) : Bool :=
  !(pyListEqEmptySet d.packages)

/-- Python's `package.split('.', 1)[0]`: the text before the first dot. -/
def splitFirstDot (s : String) : String :=
  ⟨(splitOnChar '.' s.toList).headD s.toList⟩

/-- Embedding of the `SetupPyMetadataExtractor.packages` property
(`src/pyp2rpm/metadata_extractors.py`, lines 335–340): when
`has_packages`, the set of first dotted components of the declared
package names (each must be a string, else `split` raises, modelled as
`.error`); otherwise the property falls through and returns `None`. -/
def setupPy_packages (d : CoercedDistribution) : Except String DataVal :=
  if setupPy_has_packages d then do
    let names ← d.packages.mapM
      (fun p => match p with
        | .str s => Except.ok (splitFirstDot s)
        | _ => Except.error "AttributeError: split")
    return .strset names
  else
    return .pynone

/-- Embedding of the package-fallback step of
`LocalMetadataExtractor.extract_data`
(`src/pyp2rpm/metadata_extractors.py`, lines 227–230):
`if data.packages in ("TODO:", set()): data.packages = set([data.name])`.
Tuple membership tests `==` against each element in turn. -/
def extract_data_package_fallback (data : PackageData) : PackageData :=
  if (data.get "packages").pyEq (.str "TODO:")
      || (data.get "packages").pyEq (.strset []) then
    data.setAttr "packages" (.strset [data.name])
  else
    data

/-! ## metadata_extractors.py — wheel requirement groups -/

/-- One structured requirement group of a wheel's JSON metadata: an
optional environment filter string and the requirement strings. -/
structure ReqGroup where
  environment : Option String
  requires : List String

/-- The environment test of `WheelMetadataExtractor.get_requires`
(line 478): `'win' in requires.get('environment', {})` — a substring test
against the filter string when present; with the `{}` default the `in`
test is a key lookup in an empty dict and is false. -/
def envHasWin (g : ReqGroup) : Bool :=
  match g.environment with
  | some e => containsSub "win".toList e.toList
  | none => false

/-- Embedding of `WheelMetadataExtractor.get_requires`
(`src/pyp2rpm/metadata_extractors.py`, lines 470–481): for each requested
category label, walk its requirement groups in metadata order, skip any
group whose environment filter mentions `win`, and extend the result
with the group's requirement strings.  `json_metadata.get(name, [])` is
the total map `metadata` (absent labels yield `[]`). -/
def wheel_get_requires (metadata : String → List ReqGroup)
    (requires_types : List String) : List String :=
  requires_types.foldl
    (fun acc requires_name =>
      (metadata requires_name).foldl
        (fun acc2 g => if envHasWin g then acc2 else acc2 ++ g.requires)
        acc)
    []

/-! ## Dependency normalization

`pyp2rpm.dependency_parser` is not among the shown sources; the parsers
are modelled from the spec (§4.3).  `name_convert_deps_list` is from the
shown source. -/

/-- The relation label of a normalized dependency, per the spec (§4.3):
a semantic tag encoding the relation kind and, when present, the
comparison operator. -/
def specLabel (runtime : Bool) : String :=
  if runtime then "Requires" else "BuildRequires"

/-- Character class of comparison-operator characters in a specifier. -/
def isOpChar (c : Char) : Bool :=
  c = '<' || c = '>' || c = '=' || c = '!'

/-- Modelled from the spec: parsing one dependency specifier string of
format (a), `name (op version)` or `name op version` (§4.3).  The name
is the leading run of characters up to a space or opening parenthesis;
the optional trailing comparison is split into operator and version.
The entry carries the relation label first and the name at index 1 (the
position rewritten by `name_convert_deps_list`).  A non-string token has
no parse (`SpecifierParseError`). -/
def parsePypSpecifier (runtime : Bool) : PyVal → Except String (List String)
  | .str t =>
    let name : String := ⟨t.toList.takeWhile (fun c => c ≠ ' ' && c ≠ '(')⟩
    let rest := (t.toList.dropWhile (fun c => c ≠ ' ' && c ≠ '(')).filter
      (fun c => c ≠ ' ' && c ≠ '(' && c ≠ ')')
    if rest.isEmpty then
      .ok [specLabel runtime, name]
    else
      .ok [specLabel runtime ++ " " ++ ⟨rest.takeWhile isOpChar⟩, name,
           ⟨rest.dropWhile isOpChar⟩]
  | _ => .error "SpecifierParseError"

/-- Modelled from the spec: `deps_from_pyp_format` — the flat sequence
of specifier strings is normalized token by token, in order (§4.3); the
first token with no parse fails the whole conversion. -/
def deps_from_pyp_format (tokens : List PyVal) (runtime : Bool) :
    Except String (List (List String)) :=
  match tokens with
  | [] => .ok []
  | t :: ts => do
    let dep ← parsePypSpecifier runtime t
    let rest ← deps_from_pyp_format ts runtime
    return dep :: rest

/-- Modelled from the spec: `deps_from_pydit_json` — format (b)
requirement strings from the structured wheel metadata, normalized token
by token, in order (§4.3, §4.5). -/
def deps_from_pydit_json (tokens : List String) (runtime : Bool) :
    List (List String) :=
  tokens.map (fun t =>
    match parsePypSpecifier runtime (.str t) with
    | .ok dep => dep
    | .error _ => [specLabel runtime, t])

/-- Embedding of `LocalMetadataExtractor.name_convert_deps_list`
(`src/pyp2rpm/metadata_extractors.py`, lines 135–139): rewrites
`dep[1]` of every entry through the injected naming convention
(`name_convertor.rpm_name`); every parser entry carries the raw name at
index 1. -/
def name_convert_deps_list (rpm_name : String → String)
    (deps_list : List (List String)) : List (List String) :=
  deps_list.map (fun dep => dep.set 1 (rpm_name (dep.getD 1 "")))

/-! ## Strategy A / Strategy B dependency lists -/

/-- The token list `install_requires` as mutated by
`SetupPyMetadataExtractor.runtime_deps`
(`src/pyp2rpm/metadata_extractors.py`, lines 300–315): when
`entry_points` is truthy and `'setuptools'` is not already among the
tokens, `'setuptools'` is appended. -/
def setupPy_runtime_tokens (d : CoercedDistribution) : List PyVal :=
  let install_requires := d.install_requires
  if d.entry_points.truthy && !(install_requires.any (·.eqStr "setuptools")) then
    install_requires ++ [.str "setuptools"]
  else
    install_requires

/-- Embedding of `SetupPyMetadataExtractor.runtime_deps`: the mutated
token list fed to `deps_from_pyp_format` and then name-converted. -/
def setupPy_runtime_deps (rpm_name : String → String)
    (d : CoercedDistribution) : Except String (List (List String)) :=
  (deps_from_pyp_format (setupPy_runtime_tokens d) true).map
    (name_convert_deps_list rpm_name)

/-- The token list `setup_requires + tests_require` as mutated by
`SetupPyMetadataExtractor.build_deps`
(`src/pyp2rpm/metadata_extractors.py`, lines 317–329): when
`'setuptools'` is not already among the tokens it is appended. -/
def setupPy_build_tokens (d : CoercedDistribution) : List PyVal :=
  let build_requires := d.setup_requires ++ d.tests_require
  if !(build_requires.any (·.eqStr "setuptools")) then
    build_requires ++ [.str "setuptools"]
  else
    build_requires

/-- Embedding of `SetupPyMetadataExtractor.build_deps`: the mutated
token list fed to `deps_from_pyp_format` and then name-converted. -/
def setupPy_build_deps (rpm_name : String → String)
    (d : CoercedDistribution) : Except String (List (List String)) :=
  (deps_from_pyp_format (setupPy_build_tokens d) false).map
    (name_convert_deps_list rpm_name)

/-- The record's build-dependency list as assembled by
`LocalMetadataExtractor.data_from_archive`
(`src/pyp2rpm/metadata_extractors.py`, line 251): the baseline
interpreter development package is prepended to the strategy's build
dependencies. -/
def data_from_archive_build_deps (build_deps : List (List String)) :
    List (List String) :=
  [["BuildRequires", "python2-devel"]] ++ build_deps

/-- The token list of `WheelMetadataExtractor.runtime_deps`
(`src/pyp2rpm/metadata_extractors.py`, lines 483–488): the
`run_requires` and `meta_requires` groups, with `'setuptools'` appended
when absent. -/
def wheel_runtime_tokens (metadata : String → List ReqGroup) : List String :=
  let run_requires := wheel_get_requires metadata ["run_requires", "meta_requires"]
  if !(run_requires.contains "setuptools") then
    run_requires ++ ["setuptools"]
  else
    run_requires

/-- The token list of `WheelMetadataExtractor.build_deps`
(`src/pyp2rpm/metadata_extractors.py`, lines 490–495): the
`build_requires` and `test_requires` groups, with `'setuptools'`
appended when absent. -/
def wheel_build_tokens (metadata : String → List ReqGroup) : List String :=
  let build_requires := wheel_get_requires metadata ["build_requires", "test_requires"]
  if !(build_requires.contains "setuptools") then
    build_requires ++ ["setuptools"]
  else
    build_requires

/-- Embedding of `WheelMetadataExtractor.runtime_deps`: the mutated token
list fed to `deps_from_pydit_json` and then name-converted. -/
def wheel_runtime_deps (rpm_name : String → String)
    (metadata : String → List ReqGroup) : List (List String) :=
  name_convert_deps_list rpm_name
    (deps_from_pydit_json (wheel_runtime_tokens metadata) true)

/-- Embedding of `WheelMetadataExtractor.build_deps`: the mutated token
list fed to `deps_from_pydit_json` and then name-converted. -/
def wheel_build_deps (rpm_name : String → String)
    (metadata : String → List ReqGroup) : List (List String) :=
  name_convert_deps_list rpm_name
    (deps_from_pydit_json (wheel_build_tokens metadata) false)

/-! ## Shared sample data for witnesses -/

/-- A freshly constructed metadata record, as `extract_data` builds it
(`PackageData(self.local_file, self.name, rpm_name, self.version)`). -/
def samplePackageData : PackageData :=
  ⟨"spam-1.0.tar.gz", "spam", "python-spam", "1.0", []⟩

/-! ## Claim C1 -/

/-- Claim C1: after the injected command's `run` stores the captured
distribution, the class attribute `class_dist` does hold it (and the
direct read in `SetupPyMetadataExtractor.__init__` recovers it), but
`ModuleRunner.results` reads the attribute `class_metadata`, which is
never assigned anywhere: the lookup yields `none` (Python:
`AttributeError`), never the captured distribution — the handoff slot
does *not* round-trip through `results`. -/
theorem c1_handoff_slot_mismatch (α : Type) (d : α) :
    extract_dist_run d (extractDistClassAttrs α) "class_dist"
        = some (Slot.dist d) ∧
    setupPyExtractor_readDistribution (extract_dist_run d (extractDistClassAttrs α))
        = some (Slot.dist d) ∧
    moduleRunner_results (extract_dist_run d (extractDistClassAttrs α))
        = none := by
  refine ⟨rfl, ?_, ?_⟩ <;>
    simp [setupPyExtractor_readDistribution, moduleRunner_results,
      extract_dist_run, extractDistClassAttrs]

/-! ## Claim C2 -/

/-- Claim C2 counterexample: a subprocess that exits with return code 1
while printing a parseable payload after the marker line.
`ExternModuleRunner.run` completes normally with the parsed result
(`ok`); the non-zero return code is only logged (first component) —
no error of any kind is raised, refuting the claim that such a failure
is reported to the caller rather than merely logged. -/
theorem c2_counterexample_nonzero_exit_only_logged :
    externModuleRunner_run (fun s => if s = "[]" then some () else none) 1
      "some build output\nextracted json data:\n[]"
    = (true, ExternRunResult.ok ()) := by
  rfl

/-- Claim C2 amended: on a non-zero subprocess return code
`ExternModuleRunner.run` only logs the failure and continues; it then
deserializes the stdout segment after the marker line, succeeding
whenever `json.loads` succeeds, and failing — with a JSON decode error,
not a `SandboxExecutionError` — exactly when the segment is
unparseable. -/
theorem c2_amended_run_behaviour (J : Type) (jsonLoads : String → Option J)
    (returncode : Int) (stdout : String) :
    externModuleRunner_run jsonLoads returncode stdout =
      ((returncode != 0),
        match jsonLoads (externPayload stdout) with
        | some j => ExternRunResult.ok j
        | none => ExternRunResult.jsonDecodeError) := by
  cases h : jsonLoads (externPayload stdout) <;>
    simp [externModuleRunner_run, h]

/-! ## Claim C3 -/

/-- Claim C3 counterexample: a registry client whose `release_data`
lookup succeeds but whose URL/checksum retrieval (`get_url`, called
outside the overlay's `try` block) fails with a communication error.
The exception escapes `pypi_metadata_extension` (`.error`), so the
overlay neither absorbs every communication failure nor returns the base
record. -/
theorem c3_counterexample_get_url_failure_escapes :
    pypi_metadata_extension (fun _ => []) (fun _ => DataVal.str "TODO")
      samplePackageData
      (some (⟨Except.ok (), Except.error "network error"⟩ : RegistryClient Unit))
    = .error "network error" := by
  rfl

/-- Claim C3 amended: the overlay's `try` block covers the null-client
check and the `release_data` lookup; when the client is absent or that
lookup fails, no exception escapes and the record of the base extraction
is returned unchanged.  (A failure of the subsequent URL/checksum
retrieval is outside the `try` block and escapes, per the
counterexample.) -/
theorem c3_amended_release_data_failure_unchanged (R : Type)
    (usable : R → List (String × DataVal)) (licenseFromTrove : R → DataVal)
    (data : PackageData) (client : Option (RegistryClient R))
    (h : client = none ∨ ∃ c e, client = some c ∧ c.release_data = .error e) :
    pypi_metadata_extension usable licenseFromTrove data client = .ok data := by
  rcases h with h | ⟨c, e, rfl, hc⟩
  · subst h; rfl
  · simp [pypi_metadata_extension, hc]

/-- Witness for C3 amended at a concrete input: a null client (the
overlay raises and catches `ValueError("Client is None.")`) leaves the
record unchanged. -/
theorem c3_amended_witness :
    pypi_metadata_extension (fun _ : Unit => []) (fun _ => DataVal.str "TODO")
      samplePackageData none = .ok samplePackageData :=
  c3_amended_release_data_failure_unchanged Unit (fun _ => [])
    (fun _ => DataVal.str "TODO") samplePackageData none (Or.inl rfl)

/-! ## Claim C8 -/

/-- Claim C8: when the environment probe fails to provision
(`VirtualenvFailException`, the failure type of the probe), the overlay
returns the record unchanged, and — when the probe was actually enabled
and attempted — the failure is logged (`logger.error`, the `true`
flag).  The overlay is a total function of the probe outcome: no
exception escapes it. -/
theorem c8_venv_overlay_failure_unchanged (va vf : Bool)
    (probe : Except String (List (String × DataVal)))
    (data : PackageData) (e : String) (h : probe = .error e) :
    (venv_metadata_extension va vf probe data).snd = data ∧
    (va = true → vf = true →
      venv_metadata_extension va vf probe data = (true, data)) := by
  subst h
  cases va <;> cases vf <;> simp [venv_metadata_extension]

/-- Witness for C8 at a concrete input: an enabled probe failing with a
`VirtualenvFailException` leaves the sample record unchanged and logs. -/
theorem c8_witness :
    (venv_metadata_extension true true (Except.error "virtualenv fail")
        samplePackageData).snd = samplePackageData ∧
    venv_metadata_extension true true (Except.error "virtualenv fail")
        samplePackageData = (true, samplePackageData) := by
  have h := c8_venv_overlay_failure_unchanged true true
    (Except.error "virtualenv fail") samplePackageData "virtualenv fail" rfl
  exact ⟨h.1, h.2 rfl rfl⟩

/-! ## Claim C4 -/

/-- An attribute that is absent or holds Python `None` coerces to the
explicit empty list. -/
theorem to_list_default_empty (v : Option PyVal)
    (h : v = none ∨ v = some .pynone) :
    to_list (v.getD (.list [])) = .ok [] := by
  rcases h with h | h <;> subst h <;> rfl

/-- An attribute that does not hold a string coerces to the sentinel
string. -/
theorem to_str_not_str (v : PyVal) (h : ∀ s, v ≠ .str s) :
    to_str v = "TODO" := by
  cases v with
  | str s => exact absurd rfl (h s)
  | _ => rfl

/-- The free-text hypothesis of C4: the metadata attribute is absent or
holds a non-string value. -/
def notStrAttr (v : Option PyVal) : Prop :=
  ∀ s, v.getD .pynone ≠ PyVal.str s

/-- Claim C4: after `extract_dist.__init__` succeeds, every list-like
attribute (`setup_requires`, `tests_require`, `install_requires`,
`conflicts`, `packages`, `py_modules`, `classifiers`) that was absent or
`None` is the explicit empty list, and every free-text attribute
(`url`, `long_description`, `description`, `license`) that was absent or
not a string is the explicit sentinel string `"TODO"`.  The result type
`CoercedDistribution` types the list attributes as lists and the text
attributes as strings, so no attribute reaches the extractor as an
uncoerced null. -/
theorem c4_absent_fields_coerced (raw : RawDistribution)
    (d : CoercedDistribution) (h : extract_dist_init raw = .ok d) :
    ((raw.setup_requires = none ∨ raw.setup_requires = some .pynone) →
      d.setup_requires = []) ∧
    ((raw.tests_require = none ∨ raw.tests_require = some .pynone) →
      d.tests_require = []) ∧
    ((raw.install_requires = none ∨ raw.install_requires = some .pynone) →
      d.install_requires = []) ∧
    ((raw.conflicts = none ∨ raw.conflicts = some .pynone) →
      d.conflicts = []) ∧
    ((raw.packages = none ∨ raw.packages = some .pynone) →
      d.packages = []) ∧
    ((raw.py_modules = none ∨ raw.py_modules = some .pynone) →
      d.py_modules = []) ∧
    ((raw.classifiers = none ∨ raw.classifiers = some .pynone) →
      d.classifiers = []) ∧
    (notStrAttr raw.url → d.url = "TODO") ∧
    (notStrAttr raw.long_description → d.long_description = "TODO") ∧
    (notStrAttr raw.description → d.description = "TODO") ∧
    (notStrAttr raw.license → d.license = "TODO") := by
  unfold extract_dist_init at h
  simp only [bind, Except.bind] at h
  cases h1 : to_list (raw.setup_requires.getD (.list [])) with
  | error e => rw [h1] at h; cases h
  | ok sr =>
  rw [h1] at h
  cases h2 : to_list (raw.tests_require.getD (.list [])) with
  | error e => rw [h2] at h; cases h
  | ok tr =>
  rw [h2] at h
  cases h3 : to_list (raw.install_requires.getD (.list [])) with
  | error e => rw [h3] at h; cases h
  | ok ir =>
  rw [h3] at h
  cases h4 : to_list (raw.conflicts.getD (.list [])) with
  | error e => rw [h4] at h; cases h
  | ok cf =>
  rw [h4] at h
  cases h5 : to_list (raw.packages.getD (.list [])) with
  | error e => rw [h5] at h; cases h
  | ok pk =>
  rw [h5] at h
  cases h6 : to_list (raw.py_modules.getD (.list [])) with
  | error e => rw [h6] at h; cases h
  | ok pm =>
  rw [h6] at h
  cases h7 : to_list (raw.classifiers.getD (.list [])) with
  | error e => rw [h7] at h; cases h
  | ok cl =>
  rw [h7] at h
  simp only [pure, Except.pure, Except.ok.injEq] at h
  subst h
  refine ⟨?_, ?_, ?_, ?_, ?_, ?_, ?_, ?_, ?_, ?_, ?_⟩
  · intro ha; rw [to_list_default_empty _ ha] at h1; exact (Except.ok.injEq _ _).mp h1.symm
  · intro ha; rw [to_list_default_empty _ ha] at h2; exact (Except.ok.injEq _ _).mp h2.symm
  · intro ha; rw [to_list_default_empty _ ha] at h3; exact (Except.ok.injEq _ _).mp h3.symm
  · intro ha; rw [to_list_default_empty _ ha] at h4; exact (Except.ok.injEq _ _).mp h4.symm
  · intro ha; rw [to_list_default_empty _ ha] at h5; exact (Except.ok.injEq _ _).mp h5.symm
  · intro ha; rw [to_list_default_empty _ ha] at h6; exact (Except.ok.injEq _ _).mp h6.symm
  · intro ha; rw [to_list_default_empty _ ha] at h7; exact (Except.ok.injEq _ _).mp h7.symm
  · intro ha; exact to_str_not_str _ ha
  · intro ha; exact to_str_not_str _ ha
  · intro ha; exact to_str_not_str _ ha
  · intro ha; exact to_str_not_str _ ha

/-- A raw captured distribution in which every attribute is absent. -/
def rawAllAbsent : RawDistribution :=
  ⟨none, none, none, none, none, none, none, none, none, none, none, .pynone⟩

/-- The distribution `extract_dist.__init__` produces from
`rawAllAbsent`: all list attributes empty, all free-text attributes at
the sentinel. -/
def coercedAllDefault : CoercedDistribution :=
  ⟨[], [], [], [], [], [], "TODO", "TODO", "TODO", "TODO", [], .pynone⟩

/-- Witness for C4 at a concrete input: a raw distribution with every
attribute absent initializes successfully, and the coercions yield the
explicit empty list and the sentinel string. -/
theorem c4_witness :
    extract_dist_init rawAllAbsent = .ok coercedAllDefault ∧
    coercedAllDefault.setup_requires = [] ∧
    coercedAllDefault.classifiers = [] ∧
    coercedAllDefault.url = "TODO" := by
  have h := c4_absent_fields_coerced rawAllAbsent coercedAllDefault rfl
  exact ⟨rfl, h.1 (Or.inl rfl), (h.2.2.2.2.2.2).1 (Or.inl rfl),
    (h.2.2.2.2.2.2.2).1 (fun s hs => PyVal.noConfusion hs)⟩

/-! ## Claim C5 -/

/-- Claim C5: in a Strategy-A extraction whose captured `packages`
attribute is at its default empty value, the `packages` property yields
the empty set (`has_packages` is true because a list never equals
`set()`, and the comprehension over the empty list is empty), and the
fallback step of `extract_data` then replaces it on the freshly built
record by the singleton set holding the source name. -/
theorem c5_package_fallback (local_file name pkg_name version : String)
    (d : CoercedDistribution) (h : d.packages = []) :
    setupPy_packages d = .ok (.strset []) ∧
    (extract_data_package_fallback
        ((PackageData.mk local_file name pkg_name version []).set_from
          [("packages", DataVal.strset [])] false)).get "packages"
      = .strset [name] := by
  constructor
  · simp only [setupPy_packages, setupPy_has_packages, pyListEqEmptySet,
      Bool.not_false, if_pos, h]
    rfl
  · rfl

/-- Witness for C5 at the spec's concrete example: the archive
`spam-1.0` whose descriptor declares `install_requires=[]` and no
`packages` (the all-default captured distribution) resolves to the
package set containing exactly `"spam"`. -/
theorem c5_witness :
    setupPy_packages coercedAllDefault = .ok (.strset []) ∧
    (extract_data_package_fallback
        ((PackageData.mk "spam-1.0.tar.gz" "spam" "python-spam" "1.0" []).set_from
          [("packages", DataVal.strset [])] false)).get "packages"
      = .strset ["spam"] :=
  c5_package_fallback "spam-1.0.tar.gz" "spam" "python-spam" "1.0"
    coercedAllDefault rfl

/-! ## Claim C6 -/

/-- Reading a dropped list is reading the original at the shifted
index. -/
theorem getD_drop_eq (l : List α) (n m : Nat) (d : α) :
    (l.drop n).getD m d = l.getD (n + m) d := by
  simp [List.getD_eq_getElem?_getD, List.getElem?_drop]

/-- A failed scan means no position holds the character (positions past
the end read the default, which differs from the character). -/
theorem findCharFrom_none_getD (c d : Char) (hd : d ≠ c) :
    ∀ (xs : List Char) (i : Nat), findCharFrom c xs i = none →
      ∀ m, xs.getD m d ≠ c := by
  intro xs
  induction xs with
  | nil => intro i _ m; simpa [List.getD] using hd
  | cons x xt ih =>
    intro i h m
    unfold findCharFrom at h
    by_cases hx : x = c
    · simp [hx] at h
    · rw [if_neg hx] at h
      cases m with
      | zero => simpa [List.getD] using hx
      | succ m => simpa [List.getD] using ih (i + 1) h m

/-- A successful scan returns the first position at or after the start
offset holding the character. -/
theorem findCharFrom_some_getD (c d : Char) :
    ∀ (xs : List Char) (i k : Nat), findCharFrom c xs i = some k →
      ∃ j, k = i + j ∧ xs.getD j d = c ∧ ∀ m, m < j → xs.getD m d ≠ c := by
  intro xs
  induction xs with
  | nil => intro i k h; cases h
  | cons x xt ih =>
    intro i k h
    unfold findCharFrom at h
    by_cases hx : x = c
    · rw [if_pos hx] at h
      injection h with hik
      exact ⟨0, by omega, by simpa [List.getD] using hx, by intro m hm; omega⟩
    · rw [if_neg hx] at h
      obtain ⟨j, hk, hget, hmin⟩ := ih (i + 1) k h
      refine ⟨j + 1, by omega, by simpa [List.getD] using hget, ?_⟩
      intro m hm
      cases m with
      | zero => simpa [List.getD] using hx
      | succ m => simpa [List.getD] using hmin m (by omega)

/-- The two branches of the description property, by the scan's
outcome. -/
theorem setupPy_description_cases (ld : String) :
    setupPy_description ld =
      (match findCharFrom '\n' (ld.toList.drop (80 * 8)) 0 with
        | none => ld
        | some k => String.mk (ld.toList.take (640 + k)) ++ "\n...") := by
  unfold setupPy_description pyStrFind
  cases hfc : findCharFrom '\n' (ld.toList.drop (80 * 8)) 0 with
  | none => rfl
  | some k =>
    show (if ((80 * 8 + k : Nat) : Int) > -1 then
        String.mk (ld.toList.take ((80 * 8 + k : Nat) : Int).toNat) ++ "\n..."
      else ld) = String.mk (ld.toList.take (640 + k)) ++ "\n..."
    rw [if_pos (by omega : ((80 * 8 + k : Nat) : Int) > -1)]
    have ht : ((80 * 8 + k : Nat) : Int).toNat = 640 + k := by omega
    rw [ht]

/-- Claim C6: the description property cuts the cleaned long description
(its input) at the first line break at or after the 640-character
threshold (`80 * 8`) and appends the truncation marker `"\n..."`; a
cleaned description with no line break after the threshold is returned
whole.  `pyStrFind` is Python's `str.find`: `-1` when no line break
exists at or after the threshold, otherwise the least such position. -/
theorem c6_description_truncation (ld : String) :
    (pyStrFind ld '\n' (80 * 8) = -1 →
      setupPy_description ld = ld ∧
      ∀ j, 640 ≤ j → ld.toList.getD j ' ' ≠ '\n') ∧
    (∀ cut : Nat, pyStrFind ld '\n' (80 * 8) = (cut : Int) →
      setupPy_description ld = String.mk (ld.toList.take cut) ++ "\n..." ∧
      640 ≤ cut ∧ ld.toList.getD cut ' ' = '\n' ∧
      ∀ j, 640 ≤ j → j < cut → ld.toList.getD j ' ' ≠ '\n') := by
  constructor
  · intro hf
    unfold pyStrFind at hf
    cases hfc : findCharFrom '\n' (ld.toList.drop (80 * 8)) 0 with
    | some k =>
      rw [hfc] at hf
      have hf' : ((80 * 8 + k : Nat) : Int) = -1 := hf
      exact absurd hf' (by omega)
    | none =>
      refine ⟨by rw [setupPy_description_cases, hfc], ?_⟩
      intro j hj
      have h := findCharFrom_none_getD '\n' ' ' (by decide)
        (ld.toList.drop (80 * 8)) 0 hfc (j - 640)
      rw [getD_drop_eq] at h
      have ha : 80 * 8 + (j - 640) = j := by omega
      rwa [ha] at h
  · intro cut hf
    unfold pyStrFind at hf
    cases hfc : findCharFrom '\n' (ld.toList.drop (80 * 8)) 0 with
    | none =>
      rw [hfc] at hf
      have hf' : (-1 : Int) = (cut : Int) := hf
      exact absurd hf' (by omega)
    | some k =>
      rw [hfc] at hf
      have hf' : ((80 * 8 + k : Nat) : Int) = (cut : Int) := hf
      have hcut : cut = 640 + k := by omega
      obtain ⟨j, hk, hget, hmin⟩ := findCharFrom_some_getD '\n' ' '
        (ld.toList.drop (80 * 8)) 0 k hfc
      have hj : j = k := by omega
      subst hj
      rw [getD_drop_eq] at hget
      refine ⟨?_, by omega, ?_, ?_⟩
      · rw [setupPy_description_cases, hfc, hcut]
      · rw [hcut]; exact hget
      · intro j hj1 hj2
        have h := hmin (j - 640) (by omega)
        rw [getD_drop_eq] at h
        have ha : 80 * 8 + (j - 640) = j := by omega
        rwa [ha] at h

/-- Witness for C6 at a concrete input: a short cleaned description has
no line break at or after the threshold and is returned whole. -/
theorem c6_witness :
    setupPy_description "A text processing library." =
      "A text processing library." :=
  ((c6_description_truncation "A text processing library.").1 rfl).1

/-! ## Claim C7 -/

/-- Each candidate passes the all-markers-absent test exactly when it
fails the some-marker-present test. -/
theorem all_not_eq_not_any (l : List α) (f : α → Bool) :
    (l.all fun x => !f x) = !l.any f := by
  induction l with
  | nil => rfl
  | cons x xs ih => simp [List.all_cons, List.any_cons, ih, Bool.not_or]

/-- Complementary filters partition the length of a list. -/
theorem length_filter_partition (l : List α) (p : α → Bool) :
    (l.filter p).length + (l.filter fun x => !p x).length = l.length := by
  induction l with
  | nil => rfl
  | cons x xs ih => by_cases h : p x <;> simp [List.filter_cons, h] <;> omega

/-- Claim C7: `separate_license_files` partitions the documentation
candidates — the `licenses` component is exactly the candidates
containing, case-insensitively, some configured license marker as a
substring; the `other` component is exactly the remaining candidates;
every candidate lands in exactly one component (the lengths add up and,
for each candidate, membership in one side is equivalent to absence from
the other); and on the spec's example the split is
`licenses = ["LICENSE.txt", "COPYING"]`, `other = ["README.rst"]`. -/
theorem c7_license_split (license_files doc_files : List String) :
    (separate_license_files license_files doc_files).snd
      = doc_files.filter (fun doc => license_files.any (fun s => markerIn s doc)) ∧
    (separate_license_files license_files doc_files).fst
      = doc_files.filter (fun doc => !(license_files.any (fun s => markerIn s doc))) ∧
    (separate_license_files license_files doc_files).fst.length
      + (separate_license_files license_files doc_files).snd.length
      = doc_files.length ∧
    (∀ doc, doc ∈ doc_files →
      (doc ∈ (separate_license_files license_files doc_files).snd ↔
        ¬ doc ∈ (separate_license_files license_files doc_files).fst)) ∧
    separate_license_files LICENSE_FILES ["LICENSE.txt", "README.rst", "COPYING"]
      = (["README.rst"], ["LICENSE.txt", "COPYING"]) := by
  have hfun : (fun doc => license_files.all fun s => !markerIn s doc)
      = (fun doc => !(license_files.any fun s => markerIn s doc)) :=
    funext fun doc => all_not_eq_not_any _ _
  refine ⟨rfl, ?_, ?_, ?_, ?_⟩
  · unfold separate_license_files
    rw [hfun]
  · unfold separate_license_files
    dsimp only
    rw [hfun]
    have h := length_filter_partition doc_files
      (fun doc => license_files.any fun s => markerIn s doc)
    omega
  · intro doc hdoc
    unfold separate_license_files
    simp only [List.mem_filter, all_not_eq_not_any, hdoc, true_and]
    cases h : license_files.any (fun s => markerIn s doc) <;> simp
  · decide

/-- Witness for C7 at the spec's example: `"COPYING"` lands in the
`licenses` component and not in `other`, and the whole split matches the
spec. -/
theorem c7_witness :
    ("COPYING" ∈ (separate_license_files LICENSE_FILES
        ["LICENSE.txt", "README.rst", "COPYING"]).snd ↔
      ¬ "COPYING" ∈ (separate_license_files LICENSE_FILES
        ["LICENSE.txt", "README.rst", "COPYING"]).fst) ∧
    separate_license_files LICENSE_FILES ["LICENSE.txt", "README.rst", "COPYING"]
      = (["README.rst"], ["LICENSE.txt", "COPYING"]) :=
  ⟨(c7_license_split LICENSE_FILES ["LICENSE.txt", "README.rst", "COPYING"]).2.2.2.1
      "COPYING" (by decide),
    (c7_license_split LICENSE_FILES ["LICENSE.txt", "README.rst", "COPYING"]).2.2.2.2⟩

/-! ## Claim C9 -/

/-- The inner loop of `get_requires` over one category's groups extends
the accumulator with exactly the requirement strings of the
non-`win`-scoped groups, in order. -/
theorem wheel_get_requires_inner (groups : List ReqGroup) (acc : List String) :
    groups.foldl (fun a g => if envHasWin g then a else a ++ g.requires) acc
      = acc ++ (groups.filter (fun g => !envHasWin g)).flatMap
          (fun g => g.requires) := by
  induction groups generalizing acc with
  | nil => simp
  | cons g gs ih =>
    by_cases h : envHasWin g <;>
      simp [List.foldl_cons, List.filter_cons, h, ih, List.append_assoc]

/-- The outer loop of `get_requires` over the requested categories. -/
theorem wheel_get_requires_outer (metadata : String → List ReqGroup) :
    ∀ (types acc : List String),
      types.foldl (fun acc n => (metadata n).foldl
        (fun a g => if envHasWin g then a else a ++ g.requires) acc) acc
      = acc ++ types.flatMap
          (fun n => ((metadata n).filter (fun g => !envHasWin g)).flatMap
            (fun g => g.requires)) := by
  intro types
  induction types with
  | nil => intro acc; simp
  | cons t ts ih =>
    intro acc
    rw [List.foldl_cons, ih, wheel_get_requires_inner]
    simp [List.append_assoc]

/-- Claim C9: `get_requires` returns exactly the requirement strings of
the requested category groups whose environment filter does not mention
the excluded `win` tag; all groups whose environment applies are kept,
in metadata order. -/
theorem c9_wheel_requires_filter (metadata : String → List ReqGroup)
    (requires_types : List String) :
    wheel_get_requires metadata requires_types
      = requires_types.flatMap
          (fun n => ((metadata n).filter (fun g => !envHasWin g)).flatMap
            (fun g => g.requires)) := by
  unfold wheel_get_requires
  simpa using wheel_get_requires_outer metadata requires_types []

/-! ## Claim C10 -/

/-- Membership transports through the token-by-token normalization: when
the whole conversion succeeds, every input token has its parsed entry in
the output. -/
theorem deps_from_pyp_format_mem (runtime : Bool) :
    ∀ (tokens : List PyVal) (deps : List (List String)) (t : PyVal),
      deps_from_pyp_format tokens runtime = .ok deps → t ∈ tokens →
      ∃ dep ∈ deps, parsePypSpecifier runtime t = .ok dep := by
  intro tokens
  induction tokens with
  | nil => intro deps t _ ht; cases ht
  | cons x xs ih =>
    intro deps t h ht
    unfold deps_from_pyp_format at h
    simp only [bind, Except.bind] at h
    cases hp : parsePypSpecifier runtime x with
    | error e => rw [hp] at h; cases h
    | ok dep =>
      rw [hp] at h
      cases hr : deps_from_pyp_format xs runtime with
      | error e => rw [hr] at h; cases h
      | ok rest =>
        rw [hr] at h
        simp only [pure, Except.pure, Except.ok.injEq] at h
        subst h
        cases ht with
        | head => exact ⟨dep, List.mem_cons_self _ _, hp⟩
        | tail _ ht' =>
          obtain ⟨d2, hd2, hp2⟩ := ih rest t hr ht'
          exact ⟨d2, List.mem_cons_of_mem _ hd2, hp2⟩

/-- A Boolean `any`-test for the `'setuptools'` token yields an actual
member. -/
theorem eqStr_any_mem (l : List PyVal)
    (h : l.any (PyVal.eqStr · "setuptools") = true) :
    PyVal.str "setuptools" ∈ l := by
  obtain ⟨x, hx, he⟩ := List.any_eq_true.mp h
  cases x with
  | str s =>
    have : s = "setuptools" := by simpa [PyVal.eqStr] using he
    subst this; exact hx
  | _ => simp [PyVal.eqStr] at he

/-- Claim C10: the token lists both strategies hand to the dependency
normalizer contain `'setuptools'` — Strategy A's build list always,
Strategy A's runtime list whenever entry points are declared (truthy),
Strategy B's build and runtime lists always — and consequently the
record's assembled build-dependency list contains an entry whose name
slot (index 1) is the canonical (name-converted) setuptools package,
for either strategy, even when the archive never declares it. -/
theorem c10_setuptools_always_present (rpm_name : String → String)
    (d : CoercedDistribution) (metadata : String → List ReqGroup) :
    (setupPy_build_tokens d).any (PyVal.eqStr · "setuptools") = true ∧
    (d.entry_points.truthy = true →
      (setupPy_runtime_tokens d).any (PyVal.eqStr · "setuptools") = true) ∧
    (wheel_build_tokens metadata).contains "setuptools" = true ∧
    (wheel_runtime_tokens metadata).contains "setuptools" = true ∧
    (∀ deps, setupPy_build_deps rpm_name d = .ok deps →
      ∃ dep ∈ data_from_archive_build_deps deps,
        dep.getD 1 "" = rpm_name "setuptools") ∧
    (∃ dep ∈ data_from_archive_build_deps (wheel_build_deps rpm_name metadata),
      dep.getD 1 "" = rpm_name "setuptools") := by
  have hb : (setupPy_build_tokens d).any (PyVal.eqStr · "setuptools") = true := by
    unfold setupPy_build_tokens
    dsimp only
    cases h : (d.setup_requires ++ d.tests_require).any
        (PyVal.eqStr · "setuptools") with
    | true => simpa using h
    | false => simp [List.any_append, PyVal.eqStr]
  have hwb : (wheel_build_tokens metadata).contains "setuptools" = true := by
    cases h : (wheel_get_requires metadata
        ["build_requires", "test_requires"]).contains "setuptools" <;>
      simp_all [wheel_build_tokens, List.contains_eq_any_beq, List.any_append]
  refine ⟨hb, ?_, hwb, ?_, ?_, ?_⟩
  · intro htr
    unfold setupPy_runtime_tokens
    dsimp only
    rw [htr]
    cases h : d.install_requires.any (PyVal.eqStr · "setuptools") with
    | true => simpa using h
    | false => simp [List.any_append, PyVal.eqStr]
  · cases h : (wheel_get_requires metadata
        ["run_requires", "meta_requires"]).contains "setuptools" <;>
      simp_all [wheel_runtime_tokens, List.contains_eq_any_beq, List.any_append]
  · intro deps hdeps
    have htok := eqStr_any_mem _ hb
    unfold setupPy_build_deps at hdeps
    cases hdf : deps_from_pyp_format (setupPy_build_tokens d) false with
    | error e => rw [hdf] at hdeps; cases hdeps
    | ok rawDeps =>
      rw [hdf] at hdeps
      simp only [Except.map, Except.ok.injEq] at hdeps
      subst hdeps
      obtain ⟨dep, hdep, hp⟩ :=
        deps_from_pyp_format_mem false (setupPy_build_tokens d) rawDeps
          (.str "setuptools") hdf htok
      have hdepv : dep = ["BuildRequires", "setuptools"] := by
        have hps : parsePypSpecifier false (.str "setuptools")
            = .ok ["BuildRequires", "setuptools"] := rfl
        rw [hps] at hp
        exact ((Except.ok.injEq _ _).mp hp).symm
      subst hdepv
      refine ⟨["BuildRequires", rpm_name "setuptools"], ?_, rfl⟩
      unfold data_from_archive_build_deps
      refine List.mem_append_right _ ?_
      unfold name_convert_deps_list
      exact List.mem_map.mpr ⟨["BuildRequires", "setuptools"], hdep, rfl⟩
  · have htok : "setuptools" ∈ wheel_build_tokens metadata := by
      have hany : (wheel_build_tokens metadata).any
          (fun x => "setuptools" == x) = true := by
        rw [← List.contains_eq_any_beq]; exact hwb
      obtain ⟨x, hx, he⟩ := List.any_eq_true.mp hany
      have hxe : "setuptools" = x := beq_iff_eq.mp he
      rw [← hxe] at hx; exact hx
    refine ⟨["BuildRequires", rpm_name "setuptools"], ?_, rfl⟩
    unfold data_from_archive_build_deps
    refine List.mem_append_right _ ?_
    unfold wheel_build_deps name_convert_deps_list deps_from_pydit_json
    refine List.mem_map.mpr ⟨["BuildRequires", "setuptools"], ?_, rfl⟩
    exact List.mem_map.mpr ⟨"setuptools", htok, rfl⟩

/-- The naming convention of the witness: prepend the distribution
prefix. -/
def sampleRpmName (s : String) : String := "python-" ++ s

/-- A captured distribution with declared entry points and no declared
requirement of any kind. -/
def sampleEntryPointsDist : CoercedDistribution :=
  { coercedAllDefault with
    entry_points := .dict [("console_scripts", .list [.str "spam = spam:main"])] }

/-- Witness for C10 at a concrete input: a distribution declaring entry
points but no requirements gets `'setuptools'` into its runtime token
list, and its assembled build-dependency list carries the converted
`python-setuptools` entry. -/
theorem c10_witness :
    (setupPy_runtime_tokens sampleEntryPointsDist).any
        (PyVal.eqStr · "setuptools") = true ∧
    (∃ dep ∈ data_from_archive_build_deps [["BuildRequires", "python-setuptools"]],
      dep.getD 1 "" = sampleRpmName "setuptools") := by
  have h := c10_setuptools_always_present sampleRpmName sampleEntryPointsDist
    (fun _ => [])
  exact ⟨h.2.1 rfl, h.2.2.2.2.1 [["BuildRequires", "python-setuptools"]] rfl⟩

end Pyp2rpm
